import Mathlib

/-!
# Verification of the Mortal gameplay dataset loader

Shallow embedding of `libriichi/src/dataset/gameplay.rs`: the event-window
scanning state machine (`extend_from_event_window`), the per-participant
accumulator (`Gameplay`, `add_entry`), and the batch orchestration
(`load_events`, `load_events_by_player`, `load_gz_log_files`).

External collaborators (the per-player state tracker `PlayerState`, the
hidden-information reconstructor `Invisible`, the round-outcome extractor
`Grp`, and file/parse I/O) are parameterized as a bundle of pure functions
(`Collab`), following the contracts in the specification: the scanner only
consumes their reported outputs.
-/

set_option autoImplicit false

namespace Mortal

/-! ## Tiles

Modelled from the spec: the external tile type has 37 identities, ids 0-36;
34 ordinary ranks occupy 0-33 and the three red-five ("aka") variants are
34 (red 5m), 35 (red 5p), 36 (red 5s).  `deaka` collapses a red variant to
its ordinary counterpart; `as_usize` is the identity on this encoding. -/

/-- Modelled from the spec: collapse a red/special tile variant to its
ordinary counterpart (red 5m/5p/5s are ids 34/35/36; their ordinary
counterparts are 5m = 4, 5p = 13, 5s = 22); every other id is unchanged. -/
def deaka (t : Nat) : Nat :=
  if t = 34 then 4 else if t = 35 then 13 else if t = 36 then 22 else t

/-! ## Events

Modelled from the spec: the protocol event list is a closed sum type, one
variant per protocol message shape.  Payload fields not consumed by the
scanner are elided.  A game-start event enumerates exactly four participant
names (the external type is a four-element array, so the arity is enforced
by construction). -/

inductive Event where
  | startGame (names : String × String × String × String)
  | startKyoku
  | tsumo (actor : Nat) (pai : Nat)
  | dahai (actor : Nat) (pai : Nat)
  | chi (actor : Nat) (pai : Nat) (consumed : Nat × Nat)
  | pon (actor : Nat) (pai : Nat)
  | daiminkan (actor : Nat) (pai : Nat)
  | kakan (actor : Nat) (pai : Nat)
  | ankan (actor : Nat) (consumed : Nat × Nat × Nat × Nat)
  | reach (actor : Nat)
  | reachAccepted (actor : Nat)
  | dora (pai : Nat)
  | hora (actor : Nat) (target : Nat)
  | ryukyoku
  | endKyoku
  | endGame
  deriving DecidableEq, Inhabited

/-- Index into the four names of a game-start event (always called with an
index below four). -/
def nameAt (names : String × String × String × String) : Nat → String
  | 0 => names.1
  | 1 => names.2.1
  | 2 => names.2.2.1
  | _ => names.2.2.2

def Event.isHora : Event → Bool
  | .hora _ _ => true
  | _ => false

def Event.isTsumo : Event → Bool
  | .tsumo _ _ => true
  | _ => false

def Event.isEndKyoku : Event → Bool
  | .endKyoku => true
  | _ => false

/-! ## Legal-action report of the tracker

Modelled from the spec: the external per-participant state tracker reports,
after each event, which action categories are currently legal.  `can_act`
holds when the set is non-empty; `can_chi` when any sequence-call sub-type
is legal. -/

structure Cans where
  can_discard : Bool := false
  can_chi_low : Bool := false
  can_chi_mid : Bool := false
  can_chi_high : Bool := false
  can_pon : Bool := false
  can_daiminkan : Bool := false
  can_kakan : Bool := false
  can_ankan : Bool := false
  can_riichi : Bool := false
  can_tsumo_agari : Bool := false
  can_ron_agari : Bool := false
  can_ryukyoku : Bool := false
  deriving DecidableEq, Inhabited

def Cans.can_chi (c : Cans) : Bool :=
  c.can_chi_low || c.can_chi_mid || c.can_chi_high

def Cans.can_act (c : Cans) : Bool :=
  c.can_discard || c.can_chi || c.can_pon || c.can_daiminkan || c.can_kakan
    || c.can_ankan || c.can_riichi || c.can_tsumo_agari || c.can_ron_agari
    || c.can_ryukyoku

/-! ## Sequence-call classifier

Modelled from the spec: the external classifier, given the two consumed
tiles and the called tile, classifies the relative rank of the called tile
within the resulting run as low / mid / high. -/

inductive ChiType where
  | low
  | mid
  | high
  deriving DecidableEq

/-- Modelled from the spec: relative rank of the called tile within the run
(red variants collapsed first). -/
def chiTypeOf (consumed : Nat × Nat) (pai : Nat) : ChiType :=
  let a := min (deaka consumed.1) (deaka consumed.2)
  let b := max (deaka consumed.1) (deaka consumed.2)
  let p := deaka pai
  if p < a then ChiType.low else if p > b then ChiType.high else ChiType.mid

/-! ## Errors -/

/-- Error values as propagated by the loader: a base message, optionally
wrapped with identifying context (`anyhow::Context`). -/
inductive LoadErr where
  | base (msg : String)
  | ctx (msg : String) (inner : LoadErr)
  deriving DecidableEq

/-- `with_context`: wrap a failure with an identifying context message. -/
def withContext {α : Type _} (msg : String) : Except LoadErr α → Except LoadErr α
  | .error e => .error (.ctx msg e)
  | .ok a => .ok a

/-- Fail-fast collection of per-element results into one result
(`collect::<Result<Vec<_>>>()`). -/
def collectE {α β : Type _} : List α → (α → Except LoadErr β) → Except LoadErr (List β)
  | [], _ => .ok []
  | a :: rest, f =>
    match f a with
    | .error e => .error e
    | .ok b =>
      match collectE rest f with
      | .error e => .error e
      | .ok bs => .ok (b :: bs)

/-! ## Loader configuration -/

structure GameplayLoader where
  version : Nat
  oracle : Bool
  player_names : List String
  excludes : List String
  trust_seed : Bool
  always_include_kan_select : Bool
  deriving DecidableEq

/-- Construction-time normalization of a filter list: sort, then remove
duplicates (`sort_unstable` followed by `dedup`). -/
def sortDedup (l : List String) : List String :=
  (l.insertionSort (· ≤ ·)).dedup

/-- `GameplayLoader::new`: both filter lists are deduplicated and sorted
before being stored and used for membership tests. -/
def GameplayLoader.new (version : Nat) (oracle : Bool)
    (player_names excludes : List String)
    (trust_seed always_include_kan_select : Bool) : GameplayLoader where
  version := version
  oracle := oracle
  player_names := sortDedup player_names
  excludes := sortDedup excludes
  trust_seed := trust_seed
  always_include_kan_select := always_include_kan_select

/-- The seat-selection predicate applied to each name of the game-start
event (the filter closure in `load_events`): a non-empty allow-list decides
by membership; otherwise a non-empty deny-list decides by non-membership;
otherwise every seat is selected. -/
def selectName (cfg : GameplayLoader) (name : String) : Bool :=
  if cfg.player_names ≠ [] then decide (name ∈ cfg.player_names)
  else if cfg.excludes ≠ [] then decide (name ∉ cfg.excludes)
  else true

/-! ## External collaborators

The per-participant state tracker (`PlayerState`), the hidden-information
reconstructor (`Invisible`) and the round-outcome extractor (`Grp`) are
external to the scanned core.  They are bundled as a record of pure
functions over abstract types: `S` tracker state, `O`/`M` visible feature
matrix and legality mask, `IObs` privileged feature matrix, `Inv` one
per-round reconstruction entry, `G` the round-outcome grouping. -/

structure Collab (S O M IObs Inv G : Type) where
  /-- `PlayerState::new(player_id)`. -/
  newState : Nat → S
  /-- `PlayerState::update`: consume one event, report the legal actions. -/
  update : S → Event → S × Cans
  /-- `PlayerState::kakan_candidates`. -/
  kakanCandidates : S → List Nat
  /-- `PlayerState::ankan_candidates`. -/
  ankanCandidates : S → List Nat
  /-- `PlayerState::encode_obs(version, at_kan_select)`. -/
  encodeObs : S → Nat → Bool → O × M
  /-- `PlayerState::at_turn`. -/
  atTurn : S → Nat
  /-- `PlayerState::shanten`. -/
  shanten : S → Int
  /-- `Invisible::new(events, trust_seed)`: one entry per round. -/
  invisibleNew : List Event → Bool → List Inv
  /-- `Invisible::encode(opponent_states, yama_idx, rinshan_idx, version)`. -/
  invisibleEncode : Inv → S × S × S → Nat → Nat → Nat → IObs
  /-- Fallback entry for out-of-range round indexing (the source would
  panic there; it is never reached on well-formed logs). -/
  invisibleDefault : Inv
  /-- `Grp::load_events`. -/
  grpLoad : List Event → Except LoadErr G

/-! ## Per-(game, participant) scanning context -/

structure LoaderContext (S : Type) where
  state : S
  kyoku_idx : Nat
  -- fields below are only used for oracle
  opponent_states : S × S × S
  from_rinshan : Bool
  yama_idx : Nat
  rinshan_idx : Nat

/-! ## Per-participant accumulator -/

structure Gameplay (O M IObs G : Type) where
  -- one per move
  obs : List O
  invisible_obs : List IObs
  actions : List Int
  masks : List M
  at_kyoku : List Nat
  dones : List Bool
  apply_gamma : List Bool
  at_turns : List Nat
  shantens : List Int
  -- one per game
  grp : G
  player_id : Nat
  player_name : String

section Scanner

variable {S O M IObs Inv G : Type}

/-- `Gameplay::add_entry`: append one record to every per-record column
(the episode-boundary column is filled in a post-pass instead). -/
def add_entry (C : Collab S O M IObs Inv G) (cfg : GameplayLoader)
    (invisibles : Option (List Inv)) (g : Gameplay O M IObs G)
    (ctx : LoaderContext S) (at_kan_select : Bool) (label : Nat) :
    Gameplay O M IObs G :=
  let fm := C.encodeObs ctx.state cfg.version at_kan_select
  { g with
    obs := g.obs ++ [fm.1]
    actions := g.actions ++ [Int.ofNat label]
    masks := g.masks ++ [fm.2]
    -- the stored round index is an eight-bit machine integer
    at_kyoku := g.at_kyoku ++ [ctx.kyoku_idx % 256]
    -- only discard and kan will discount
    apply_gamma := g.apply_gamma ++ [decide (label ≤ 37)]
    at_turns := g.at_turns ++ [C.atTurn ctx.state]
    shantens := g.shantens ++ [C.shanten ctx.state]
    invisible_obs :=
      match invisibles with
      | some invs =>
        g.invisible_obs ++
          [C.invisibleEncode (invs.getD ctx.kyoku_idx C.invisibleDefault)
            ctx.opponent_states ctx.yama_idx ctx.rinshan_idx cfg.version]
      | none => g.invisible_obs }

/-- The substantive lookahead event: skip one purely-informational
interstitial event (reach-accepted or new-indicator reveal). -/
def substantive (w1 w2 : Event) : Event :=
  match w1 with
  | .reachAccepted _ => w2
  | .dora _ => w2
  | _ => w1

/-- The forward scan of the fallback case: walk the remaining window events,
stop at the round-end boundary, and return the win-by-call label when this
participant appears as a winner. -/
def horaScan (pid : Nat) : List Event → Option Nat
  | [] => none
  | .endKyoku :: _ => none
  | .hora a _ :: rest => if a = pid then some 43 else horaScan pid rest
  | _ :: rest => horaScan pid rest

/-- The fallback (rule 7) of label derivation: no direct action was matched
on this participant's opportunity; decide between win-by-call, pass, and
no record. -/
def fallbackLabel (cans : Cans) (pid : Nat) (w1 w2 w3 : Event) : Option Nat :=
  let has_any_ron := w1.isHora
  -- Check if the POV is one of those who made Hora.
  let ret := if has_any_ron then horaScan pid [w1, w2, w3] else none
  if ret.isSome then ret
  else
    -- Can chi, but actively denied instead of being interrupted by other's
    -- pon/daiminkan/ron; or can pon/daiminkan/ron, but actively denied
    -- instead of being interrupted by other's ron.
    if cans.can_chi && (substantive w1 w2).isTsumo
        || (cans.can_pon || cans.can_daiminkan || cans.can_ron_agari) && !has_any_ron
    then some 45
    else none

/-- The match of label derivation over the substantive lookahead event
(the last argument), producing the primary label (if any) and the optional
"which tile" sub-decision label for compound quad decisions.  `kc`/`ac`
are the tracker's candidate-tile reports for extended and self-declared
quads of the post-update state. -/
def deriveLabelAt (cfg : GameplayLoader) (pid : Nat) (cans : Cans)
    (kc ac : List Nat) (w1 w2 w3 : Event) : Event → Option Nat × Option Nat
  | .dahai _ pai => (some pai, none)
  | .reach _ => (some 37, none)
  | .chi a pai consumed =>
    if a = pid then
      (some (match chiTypeOf consumed pai with
             | ChiType.low => 38
             | ChiType.mid => 39
             | ChiType.high => 40), none)
    else (fallbackLabel cans pid w1 w2 w3, none)
  | .pon a _ =>
    if a = pid then (some 41, none) else (fallbackLabel cans pid w1 w2 w3, none)
  | .daiminkan a pai =>
    if a = pid then
      (some 42, if cfg.always_include_kan_select then some (deaka pai) else none)
    else (fallbackLabel cans pid w1 w2 w3, none)
  | .kakan _ pai =>
    (some 42,
     if cfg.always_include_kan_select || decide (kc.length > 1)
     then some (deaka pai) else none)
  | .ankan _ consumed =>
    (some 42,
     if cfg.always_include_kan_select || decide (ac.length > 1)
     then some (deaka consumed.1) else none)
  | .ryukyoku =>
    if cans.can_ryukyoku then (some 44, none)
    else (fallbackLabel cans pid w1 w2 w3, none)
  | _ => (fallbackLabel cans pid w1 w2 w3, none)

/-- Label derivation for one window: the match above applied to the
substantive lookahead event. -/
def deriveLabel (cfg : GameplayLoader) (pid : Nat) (cans : Cans)
    (kc ac : List Nat) (w1 w2 w3 : Event) : Option Nat × Option Nat :=
  deriveLabelAt cfg pid cans kc ac w1 w2 w3 (substantive w1 w2)

/-- Emission step at the end of a window: a primary record, optionally
followed by the "which tile" sub-decision record. -/
def emitRecords (C : Collab S O M IObs Inv G) (cfg : GameplayLoader)
    (invisibles : Option (List Inv)) (g : Gameplay O M IObs G)
    (ctx : LoaderContext S) : Option Nat × Option Nat → Gameplay O M IObs G
  | (none, _) => g
  | (some label, none) => add_entry C cfg invisibles g ctx false label
  | (some label, some kan) =>
    add_entry C cfg invisibles (add_entry C cfg invisibles g ctx false label) ctx true kan

/-- Per-event bookkeeping on the accumulator: record this participant's
display name at game start. -/
def bookkeepG (g : Gameplay O M IObs G) (w0 : Event) : Gameplay O M IObs G :=
  match w0 with
  | .startGame names => { g with player_name := nameAt names g.player_id }
  | _ => g

/-- Per-event bookkeeping, part one: round-index increment on round end
(performed in every mode). -/
def bookkeepKyoku (ctx : LoaderContext S) : Event → LoaderContext S
  | .endKyoku => { ctx with kyoku_idx := ctx.kyoku_idx + 1 }
  | _ => ctx

/-- Per-event bookkeeping, part two (oracle mode only): wall-position
counters and the dead-wall flag. -/
def bookkeepWall (ctx : LoaderContext S) : Event → LoaderContext S
  | .endKyoku =>
    { ctx with from_rinshan := false, yama_idx := 0, rinshan_idx := 0 }
  | .tsumo _ _ =>
    if ctx.from_rinshan then
      { ctx with rinshan_idx := ctx.rinshan_idx + 1, from_rinshan := false }
    else { ctx with yama_idx := ctx.yama_idx + 1 }
  | .ankan _ _ => { ctx with from_rinshan := true }
  | .kakan _ _ => { ctx with from_rinshan := true }
  | .daiminkan _ _ => { ctx with from_rinshan := true }
  | _ => ctx

/-- Per-event bookkeeping, part three (oracle mode only): update every
opponent's tracker with the current event. -/
def bookkeepOpp (C : Collab S O M IObs Inv G) (ctx : LoaderContext S)
    (w0 : Event) : LoaderContext S :=
  { ctx with
    opponent_states :=
      ((C.update ctx.opponent_states.1 w0).1,
       (C.update ctx.opponent_states.2.1 w0).1,
       (C.update ctx.opponent_states.2.2 w0).1) }

/-- Per-event bookkeeping on the context: round-index increment on round
end; in oracle mode, wall-position counters, the dead-wall flag, and the
opponents' trackers. -/
def bookkeepCtx (C : Collab S O M IObs Inv G) (oracleOn : Bool)
    (ctx : LoaderContext S) (w0 : Event) : LoaderContext S :=
  let ctx := bookkeepKyoku ctx w0
  if oracleOn then bookkeepOpp C (bookkeepWall ctx w0) w0 else ctx

/-- `Gameplay::extend_from_event_window`: process one four-event lookahead
window — bookkeeping, decision detection, label derivation, and record
emission. -/
def extend_from_event_window (C : Collab S O M IObs Inv G)
    (cfg : GameplayLoader) (invisibles : Option (List Inv))
    (g : Gameplay O M IObs G) (ctx : LoaderContext S)
    (wnd : Event × Event × Event × Event) :
    Gameplay O M IObs G × LoaderContext S :=
  let w0 := wnd.1
  let w1 := wnd.2.1
  let w2 := wnd.2.2.1
  let w3 := wnd.2.2.2
  let g := bookkeepG g w0
  let ctx := bookkeepCtx C invisibles.isSome ctx w0
  let su := C.update ctx.state w0
  let cans := su.2
  let ctx := { ctx with state := su.1 }
  if cans.can_act then
    (emitRecords C cfg invisibles g ctx
      (deriveLabel cfg g.player_id cans (C.kakanCandidates ctx.state)
        (C.ankanCandidates ctx.state) w1 w2 w3),
     ctx)
  else (g, ctx)

end Scanner

/-! ## The full per-participant pass -/

/-- `events.windows(4)`: every four-event sliding window, in order. -/
def windows4 : List Event → List (Event × Event × Event × Event)
  | a :: b :: c :: d :: rest => (a, b, c, d) :: windows4 (b :: c :: d :: rest)
  | _ => []

/-- `at_kyoku.windows(2).map(|w| w[1] > w[0])`: for each adjacent pair of
round indices, whether the later one is strictly greater. -/
def pairsLt : List Nat → List Bool
  | a :: b :: rest => decide (a < b) :: pairsLt (b :: rest)
  | _ => []

/-- The post-pass episode-boundary computation: adjacent round-index
comparisons, then a final `true`. -/
def computeDones (ks : List Nat) : List Bool :=
  pairsLt ks ++ [true]

section Pipeline

variable {S O M IObs Inv G : Type}

/-- `Gameplay::load_events_by_player`: one full forward pass for one
selected seat, then the episode-boundary post-pass. -/
def load_events_by_player (C : Collab S O M IObs Inv G)
    (cfg : GameplayLoader) (events : List Event) (player_id : Nat)
    (invisibles : Option (List Inv)) : Except LoadErr (Gameplay O M IObs G) :=
  match C.grpLoad events with
  | .error e => .error e
  | .ok grp =>
    let data : Gameplay O M IObs G :=
      { obs := [], invisible_obs := [], actions := [], masks := []
        at_kyoku := [], dones := [], apply_gamma := [], at_turns := []
        shantens := [], grp := grp, player_id := player_id, player_name := "" }
    let ctx : LoaderContext S :=
      { state := C.newState player_id
        kyoku_idx := 0
        opponent_states :=
          (C.newState ((player_id + 1) % 4),
           C.newState ((player_id + 2) % 4),
           C.newState ((player_id + 3) % 4))
        from_rinshan := false
        yama_idx := 0
        rinshan_idx := 0 }
    let fin := (windows4 events).foldl
      (fun p w => extend_from_event_window C cfg invisibles p.1 p.2 w)
      (data, ctx)
    .ok { fin.1 with dones := computeDones fin.1.at_kyoku }

/-- `GameplayLoader::load_events`: validate the game-start head, compute
the selected seat set, build the privileged reconstructions once if oracle
mode is on, and run one scan per selected seat. -/
def load_events (C : Collab S O M IObs Inv G) (cfg : GameplayLoader)
    (events : List Event) : Except LoadErr (List (Gameplay O M IObs G)) :=
  let invisibles :=
    if cfg.oracle then some (C.invisibleNew events cfg.trust_seed) else none
  match events with
  | Event.startGame names :: _ =>
    let idxs := (List.range 4).filter fun i => selectName cfg (nameAt names i)
    collectE idxs fun player_id =>
      load_events_by_player C cfg events player_id invisibles
  | _ => .error (.base "empty or invalid game log")

/-- One file of the compressed batch: open, decompress, read and parse
(delegated to `readGz`), then load; the whole file-level result is wrapped
with a context naming the file. -/
def perFileLoad (C : Collab S O M IObs Inv G) (cfg : GameplayLoader)
    (readGz : String → Except LoadErr (List Event)) (f : String) :
    Except LoadErr (List (Gameplay O M IObs G)) :=
  match readGz f with
  | .error e => .error e
  | .ok events => load_events C cfg events

/-- `GameplayLoader::load_gz_log_files`: load every path, fail the whole
batch on any failure (with the offending path named in the error context),
otherwise concatenate every path's record-sets. -/
def load_gz_log_files (C : Collab S O M IObs Inv G) (cfg : GameplayLoader)
    (readGz : String → Except LoadErr (List Event)) (files : List String) :
    Except LoadErr (List (Gameplay O M IObs G)) :=
  match collectE files
      (fun f => withContext ("error when reading " ++ f) (perFileLoad C cfg readGz f)) with
  | .error e => .error e
  | .ok results => .ok results.flatten

end Pipeline

/-! ## Concrete instantiations used for witnesses and counterexamples -/

/-- A tracker/collaborator bundle whose tracker always reports the same
legal-action set `c`, over trivial state and feature types. -/
def constCollab (c : Cans) : Collab Unit Nat Nat Nat Unit Unit where
  newState _ := ()
  update _ _ := ((), c)
  kakanCandidates _ := []
  ankanCandidates _ := []
  encodeObs _ _ _ := (0, 0)
  atTurn _ := 0
  shanten _ := 0
  invisibleNew _ _ := []
  invisibleEncode _ _ _ _ _ := 0
  invisibleDefault := ()
  grpLoad _ := .ok ()

/-- Empty legal-action set: the tracker never reports a decision point. -/
def cansNone : Cans := {}

/-- A triplet-call opportunity. -/
def cansPon : Cans := { can_pon := true }

/-- A self-drawn-win opportunity. -/
def cansTsumoAgari : Cans := { can_tsumo_agari := true }

/-- A discard opportunity. -/
def cansDiscard : Cans := { can_discard := true }

/-- A sequence-call opportunity. -/
def cansChi : Cans := { can_chi_low := true }

/-- A configuration with oracle mode off and the always-split flag off. -/
def cfgF : GameplayLoader :=
  { version := 1, oracle := false, player_names := [], excludes := []
    trust_seed := false, always_include_kan_select := false }

/-- A configuration with oracle mode off and the always-split flag on. -/
def cfgT : GameplayLoader := { cfgF with always_include_kan_select := true }

/-- An empty accumulator for seat 0 over the trivial types. -/
def gEmpty : Gameplay Nat Nat Nat Unit :=
  { obs := [], invisible_obs := [], actions := [], masks := [], at_kyoku := []
    dones := [], apply_gamma := [], at_turns := [], shantens := [], grp := ()
    player_id := 0, player_name := "" }

/-- A fresh scanning context for seat 0 over the trivial state type. -/
def ctxInit : LoaderContext Unit :=
  { state := (), kyoku_idx := 0, opponent_states := ((), (), ())
    from_rinshan := false, yama_idx := 0, rinshan_idx := 0 }

/-- Four concrete participant names. -/
def names4 : String × String × String × String := ("A", "B", "C", "D")

/-! ## Specification-side predicates (the claims' vocabulary) -/

/-- This participant appears as a winner in some win event among `evs`,
scanned forward up to (but not past) the round-end boundary. -/
def winsBeforeBoundary (pid : Nat) (evs : List Event) : Bool :=
  (evs.takeWhile fun e => !e.isEndKyoku).any fun e =>
    match e with
    | .hora a _ => a == pid
    | _ => false

/-- This participant appears as a winner in some call-based win (winner
distinct from the discarder, i.e. not a self-drawn win) among `evs`,
scanned forward up to (but not past) the round-end boundary.  This is the
condition the claim states for the win-by-call label. -/
def winsByCallBeforeBoundary (pid : Nat) (evs : List Event) : Bool :=
  (evs.takeWhile fun e => !e.isEndKyoku).any fun e =>
    match e with
    | .hora a t => a == pid && !(a == t)
    | _ => false

/-- The substantive lookahead event matches one of the direct derivation
rules 1-6 (everything except the rule-7 fallback). -/
def hitsDirectRule (pid : Nat) (cans : Cans) : Event → Bool
  | .dahai _ _ => true
  | .reach _ => true
  | .chi a _ _ => a == pid
  | .pon a _ => a == pid
  | .daiminkan a _ => a == pid
  | .kakan _ _ => true
  | .ankan _ _ => true
  | .ryukyoku => cans.can_ryukyoku
  | _ => false

/-- The sequence of action labels a single window contributes to the
record columns: nothing without a legal-action set or a derived label, the
primary label, or the primary label followed by the sub-decision label. -/
def emittedLabels (cfg : GameplayLoader) (pid : Nat) (cans : Cans)
    (kc ac : List Nat) (w1 w2 w3 : Event) : List Nat :=
  if cans.can_act then
    match deriveLabel cfg pid cans kc ac w1 w2 w3 with
    | (none, _) => []
    | (some l, none) => [l]
    | (some l, some k) => [l, k]
  else []

/-- All always-present per-record columns hold exactly one entry per
record, index-aligned with the action column. -/
def recordsAligned {O M IObs G : Type} (g : Gameplay O M IObs G) : Prop :=
  g.obs.length = g.actions.length ∧
  g.masks.length = g.actions.length ∧
  g.at_kyoku.length = g.actions.length ∧
  g.apply_gamma.length = g.actions.length ∧
  g.at_turns.length = g.actions.length ∧
  g.shantens.length = g.actions.length

/-- The reward-discount-eligibility column is pointwise the predicate
"label code at most 37" of the action column. -/
def gammaOk {O M IObs G : Type} (g : Gameplay O M IObs G) : Prop :=
  g.apply_gamma = g.actions.map fun a => decide (a ≤ 37)

/-- The parsed event list is non-empty and starts with a game-start
event. -/
def hasStartGameHead : List Event → Bool
  | Event.startGame _ :: _ => true
  | _ => false

/-! ## Concrete data for witnesses and counterexamples -/

/-- A one-event log: a bare game-start event. -/
def evsShort : List Event := [.startGame names4]

/-- A five-event log: game start, a draw and a discard by seat 0, then the
round and game ends. -/
def evs5 : List Event :=
  [.startGame names4, .tsumo 0 4, .dahai 0 4, .endKyoku, .endGame]

/-- The accumulator produced by scanning `evs5` for seat 0 with a tracker
that always reports a discard opportunity. -/
def gRun : Gameplay Nat Nat Nat Unit :=
  { obs := [0], invisible_obs := [], actions := [4], masks := [0]
    at_kyoku := [0], dones := [true], apply_gamma := [true], at_turns := [0]
    shantens := [0], grp := (), player_id := 0, player_name := "A" }

/-- A scanning context whose previous draw was flagged as a dead-wall
replacement draw. -/
def ctxFlag : LoaderContext Unit := { ctxInit with from_rinshan := true }

/-- A file reader that always succeeds with the one-event log. -/
def readGzGood : String → Except LoadErr (List Event) := fun _ => .ok evsShort

/-- A file reader that always fails. -/
def readGzBad : String → Except LoadErr (List Event) := fun _ => .error (.base "boom")

/-! ## Lemmas about the scanner -/

section ScannerLemmas

variable {S O M IObs Inv G : Type}

theorem bookkeepG_actions (g : Gameplay O M IObs G) (w0 : Event) :
    (bookkeepG g w0).actions = g.actions := by
  cases w0 <;> rfl

theorem bookkeepG_player_id (g : Gameplay O M IObs G) (w0 : Event) :
    (bookkeepG g w0).player_id = g.player_id := by
  cases w0 <;> rfl

theorem bookkeepKyoku_state (ctx : LoaderContext S) (w0 : Event) :
    (bookkeepKyoku ctx w0).state = ctx.state := by
  cases w0 <;> rfl

theorem bookkeepWall_state (ctx : LoaderContext S) (w0 : Event) :
    (bookkeepWall ctx w0).state = ctx.state := by
  cases w0 <;> first
    | rfl
    | (simp only [bookkeepWall]; split <;> rfl)

theorem bookkeepCtx_state (C : Collab S O M IObs Inv G) (b : Bool)
    (ctx : LoaderContext S) (w0 : Event) :
    (bookkeepCtx C b ctx w0).state = ctx.state := by
  cases b <;>
    simp [bookkeepCtx, bookkeepOpp, bookkeepWall_state, bookkeepKyoku_state]

theorem add_entry_actions (C : Collab S O M IObs Inv G) (cfg : GameplayLoader)
    (inv : Option (List Inv)) (g : Gameplay O M IObs G) (ctx : LoaderContext S)
    (b : Bool) (label : Nat) :
    (add_entry C cfg inv g ctx b label).actions = g.actions ++ [Int.ofNat label] := by
  cases inv <;> rfl

/-- The window's contribution to the action column: the scanner appends
exactly the labels of `emittedLabels`. -/
theorem extend_actions_eq (C : Collab S O M IObs Inv G) (cfg : GameplayLoader)
    (inv : Option (List Inv)) (g : Gameplay O M IObs G) (ctx : LoaderContext S)
    (w0 w1 w2 w3 : Event) :
    (extend_from_event_window C cfg inv g ctx (w0, w1, w2, w3)).1.actions =
      g.actions ++
        (emittedLabels cfg g.player_id (C.update ctx.state w0).2
          (C.kakanCandidates (C.update ctx.state w0).1)
          (C.ankanCandidates (C.update ctx.state w0).1) w1 w2 w3).map Int.ofNat := by
  simp only [extend_from_event_window, bookkeepCtx_state, emittedLabels,
    bookkeepG_player_id]
  cases hact : (C.update ctx.state w0).2.can_act
  · simp [bookkeepG_actions]
  · simp only [if_true]
    rcases hd : deriveLabel cfg g.player_id (C.update ctx.state w0).2
        (C.kakanCandidates (C.update ctx.state w0).1)
        (C.ankanCandidates (C.update ctx.state w0).1) w1 w2 w3 with ⟨lo, ko⟩
    cases lo <;> cases ko <;>
      simp [emitRecords, add_entry_actions, bookkeepG_actions]

/-- The scanner never changes the context except through the bookkeeping
pass and the tracker update: the returned context is independent of the
decision branch. -/
theorem extend_ctx_eq (C : Collab S O M IObs Inv G) (cfg : GameplayLoader)
    (inv : Option (List Inv)) (g : Gameplay O M IObs G) (ctx : LoaderContext S)
    (w0 w1 w2 w3 : Event) :
    (extend_from_event_window C cfg inv g ctx (w0, w1, w2, w3)).2 =
      { bookkeepCtx C inv.isSome ctx w0 with
        state := (C.update ctx.state w0).1 } := by
  simp only [extend_from_event_window, bookkeepCtx_state]
  split <;> rfl

end ScannerLemmas

/-! ## Lemmas about the fallback scan -/

theorem horaScan_cases (pid : Nat) :
    ∀ evs : List Event, horaScan pid evs = none ∨ horaScan pid evs = some 43
  | [] => Or.inl rfl
  | e :: rest => by
    cases e
    case endKyoku => exact Or.inl rfl
    case hora a t =>
      by_cases h : a = pid
      · exact Or.inr (by simp [horaScan, h])
      · simpa [horaScan, h] using horaScan_cases pid rest
    all_goals simpa [horaScan] using horaScan_cases pid rest

theorem horaScan_isSome (pid : Nat) :
    ∀ evs : List Event, (horaScan pid evs).isSome = winsBeforeBoundary pid evs
  | [] => rfl
  | e :: rest => by
    have ih := horaScan_isSome pid rest
    simp only [winsBeforeBoundary] at ih
    cases e
    case endKyoku => rfl
    case hora a t =>
      by_cases h : a = pid
      · simp [horaScan, winsBeforeBoundary, Event.isEndKyoku, h]
      · simp [horaScan, winsBeforeBoundary, Event.isEndKyoku, h, ih]
    all_goals simp [horaScan, winsBeforeBoundary, Event.isEndKyoku, ih]

/-- Characterization of the rule-7 fallback in the claims' vocabulary:
win-by-call exactly when the immediate lookahead event is a win and this
participant wins before the boundary; else pass exactly under the
sequence-call-then-draw or uninterrupted-opportunity conditions; else
nothing. -/
theorem fallbackLabel_eq (cans : Cans) (pid : Nat) (w1 w2 w3 : Event) :
    fallbackLabel cans pid w1 w2 w3 =
      if w1.isHora && winsBeforeBoundary pid [w1, w2, w3] then some 43
      else if cans.can_chi && (substantive w1 w2).isTsumo
          || (cans.can_pon || cans.can_daiminkan || cans.can_ron_agari) && !w1.isHora
      then some 45
      else none := by
  simp only [fallbackLabel]
  cases hh : w1.isHora
  · simp
  · cases hw : winsBeforeBoundary pid [w1, w2, w3]
    · have hs : (horaScan pid [w1, w2, w3]).isSome = false := by
        rw [horaScan_isSome, hw]
      have hn : horaScan pid [w1, w2, w3] = none := by
        rcases horaScan_cases pid [w1, w2, w3] with h | h
        · exact h
        · rw [h] at hs; exact absurd hs (by simp)
      simp [hn]
    · have hs : (horaScan pid [w1, w2, w3]).isSome = true := by
        rw [horaScan_isSome, hw]
      have hn : horaScan pid [w1, w2, w3] = some 43 := by
        rcases horaScan_cases pid [w1, w2, w3] with h | h
        · rw [h] at hs; exact absurd hs (by simp)
        · exact h
      simp [hn]

/-- When the substantive lookahead event matches none of the direct rules
1-6, label derivation reduces to the fallback and emits no sub-decision. -/
theorem deriveLabel_fallback (cfg : GameplayLoader) (pid : Nat) (cans : Cans)
    (kc ac : List Nat) (w1 w2 w3 : Event)
    (hfb : hitsDirectRule pid cans (substantive w1 w2) = false) :
    deriveLabel cfg pid cans kc ac w1 w2 w3 =
      (fallbackLabel cans pid w1 w2 w3, none) := by
  rw [deriveLabel]
  cases hn : substantive w1 w2
  case dahai a p => rw [hn] at hfb; simp [hitsDirectRule] at hfb
  case reach a => rw [hn] at hfb; simp [hitsDirectRule] at hfb
  case kakan a p => rw [hn] at hfb; simp [hitsDirectRule] at hfb
  case ankan a cs => rw [hn] at hfb; simp [hitsDirectRule] at hfb
  case chi a p cs =>
    rw [hn] at hfb; simp [hitsDirectRule] at hfb
    simp [deriveLabelAt, hfb]
  case pon a p =>
    rw [hn] at hfb; simp [hitsDirectRule] at hfb
    simp [deriveLabelAt, hfb]
  case daiminkan a p =>
    rw [hn] at hfb; simp [hitsDirectRule] at hfb
    simp [deriveLabelAt, hfb]
  case ryukyoku =>
    rw [hn] at hfb; simp [hitsDirectRule] at hfb
    simp [deriveLabelAt, hfb]
  all_goals simp [deriveLabelAt]

/-- With a non-empty legal-action set, the emitted labels are determined
by the derived label pair. -/
theorem emittedLabels_act (cfg : GameplayLoader) (pid : Nat) (cans : Cans)
    (kc ac : List Nat) (w1 w2 w3 : Event) (hact : cans.can_act = true) :
    emittedLabels cfg pid cans kc ac w1 w2 w3 =
      match deriveLabel cfg pid cans kc ac w1 w2 w3 with
      | (none, _) => []
      | (some l, none) => [l]
      | (some l, some k) => [l, k] := by
  rw [emittedLabels, hact]
  rfl

/-- In a fallback window, every emitted label is the win-by-call label or
the pass label. -/
theorem emittedLabels_fallback_sub (cfg : GameplayLoader) (pid : Nat)
    (cans : Cans) (kc ac : List Nat) (w1 w2 w3 : Event)
    (hfb : hitsDirectRule pid cans (substantive w1 w2) = false) :
    ∀ l ∈ emittedLabels cfg pid cans kc ac w1 w2 w3, l = 43 ∨ l = 45 := by
  intro l hl
  rw [emittedLabels, deriveLabel_fallback cfg pid cans kc ac w1 w2 w3 hfb,
    fallbackLabel_eq] at hl
  cases h1 : (w1.isHora && winsBeforeBoundary pid [w1, w2, w3]) <;> rw [h1] at hl <;>
    cases h2 : (cans.can_chi && (substantive w1 w2).isTsumo
        || (cans.can_pon || cans.can_daiminkan || cans.can_ron_agari) && !w1.isHora) <;>
      rw [h2] at hl <;>
    cases hact : cans.can_act <;> rw [hact] at hl <;> simp at hl <;> simp [hl]

section ClaimTheorems

variable {S O M IObs Inv G : Type}

/-- C1 (amended): in the fallback case (tracker reports a non-empty
legal-action set, the substantive lookahead event matches none of rules
1-6), label 43 is emitted exactly when the immediate lookahead event is a
win declaration and this participant appears as a winner in any win event
(call-based or self-drawn) among the window's forward events up to (but
not past) the round-end boundary; otherwise label 45 is emitted exactly
when this participant had a sequence-call opportunity and the substantive
lookahead event is a draw, or when the immediate lookahead event is not a
win declaration and this participant had a triplet, quad-claim, or
call-win opportunity; in every other case no record is emitted for this
window. -/
theorem c1_fallback_labels (C : Collab S O M IObs Inv G)
    (cfg : GameplayLoader) (inv : Option (List Inv)) (g : Gameplay O M IObs G)
    (ctx : LoaderContext S) (w0 w1 w2 w3 : Event) (s : S) (cans : Cans)
    (hu : C.update ctx.state w0 = (s, cans))
    (hact : cans.can_act = true)
    (hfb : hitsDirectRule g.player_id cans (substantive w1 w2) = false) :
    (extend_from_event_window C cfg inv g ctx (w0, w1, w2, w3)).1.actions =
      g.actions ++
        (if w1.isHora && winsBeforeBoundary g.player_id [w1, w2, w3]
         then [(43 : Int)]
         else if cans.can_chi && (substantive w1 w2).isTsumo
             || (cans.can_pon || cans.can_daiminkan || cans.can_ron_agari) && !w1.isHora
         then [(45 : Int)]
         else []) := by
  rw [extend_actions_eq, hu]
  rw [emittedLabels_act cfg g.player_id cans (C.kakanCandidates s)
    (C.ankanCandidates s) w1 w2 w3 hact]
  rw [deriveLabel_fallback cfg g.player_id cans _ _ w1 w2 w3 hfb, fallbackLabel_eq]
  cases h1 : (w1.isHora && winsBeforeBoundary g.player_id [w1, w2, w3])
  · cases h2 : (cans.can_chi && (substantive w1 w2).isTsumo
        || (cans.can_pon || cans.can_daiminkan || cans.can_ron_agari) && !w1.isHora) <;>
      simp
  · simp

/-- C1 witness: a triplet opportunity silently declined (lookahead is a
draw, no win in sight) emits exactly the pass label. -/
theorem c1_fallback_labels_witness :
    Cans.can_act cansPon = true ∧
    hitsDirectRule 0 cansPon (substantive (.tsumo 2 0) (.dahai 2 3)) = false ∧
    (extend_from_event_window (constCollab cansPon) cfgF none gEmpty ctxInit
        (.dahai 1 5, .tsumo 2 0, .dahai 2 3, .endKyoku)).1.actions =
      gEmpty.actions ++
        (if (Event.tsumo 2 0).isHora
            && winsBeforeBoundary gEmpty.player_id [.tsumo 2 0, .dahai 2 3, .endKyoku]
         then [(43 : Int)]
         else if cansPon.can_chi && (substantive (.tsumo 2 0) (.dahai 2 3)).isTsumo
             || (cansPon.can_pon || cansPon.can_daiminkan || cansPon.can_ron_agari)
                && !(Event.tsumo 2 0).isHora
         then [(45 : Int)]
         else []) :=
  ⟨by decide, by decide,
    c1_fallback_labels (constCollab cansPon) cfgF none gEmpty ctxInit
      (.dahai 1 5) (.tsumo 2 0) (.dahai 2 3) .endKyoku () cansPon rfl
      (by decide) (by decide)⟩

/-- C1 counterexample: after this participant's own draw the immediate
lookahead event is this participant's self-drawn (not call-based) win; the
code still emits label 43, while no call-based win of this participant
appears before the round-end boundary — refuting "label 43 is emitted if
and only if this participant appears as a winner in a call-based win". -/
theorem c1_counterexample :
    (extend_from_event_window (constCollab cansTsumoAgari) cfgF none gEmpty ctxInit
        (.tsumo 0 0, .hora 0 0, .endKyoku, .endGame)).1.actions = [(43 : Int)] ∧
    winsByCallBeforeBoundary 0 [.hora 0 0, .endKyoku, .endGame] = false ∧
    hitsDirectRule 0 cansTsumoAgari (substantive (.hora 0 0) .endKyoku) = false ∧
    Cans.can_act cansTsumoAgari = true :=
  ⟨rfl, by decide, by decide, by decide⟩

/-- C2 (amended): the sequence-call, triplet-call and claimed-quad arms of
label derivation fire only for this participant's own calls — when the
substantive lookahead event is another participant's chi, pon or
daiminkan, derivation degrades to the fallback and only the win-by-call
or pass labels can be emitted.  The discard, reach, extended-quad and
self-declared-quad arms, however, carry no actor guard: a discard emits
its tile label, a reach declaration emits 37, and a kakan or ankan emits
42, regardless of which participant performed it. -/
theorem c2_actor_guards (C : Collab S O M IObs Inv G)
    (cfg : GameplayLoader) (inv : Option (List Inv)) (g : Gameplay O M IObs G)
    (ctx : LoaderContext S) (w0 w1 w2 w3 : Event) (s : S) (cans : Cans)
    (hu : C.update ctx.state w0 = (s, cans))
    (hact : cans.can_act = true) :
    (∀ a t, substantive w1 w2 = .dahai a t →
      (extend_from_event_window C cfg inv g ctx (w0, w1, w2, w3)).1.actions =
        g.actions ++ [(t : Int)]) ∧
    (∀ a, substantive w1 w2 = .reach a →
      (extend_from_event_window C cfg inv g ctx (w0, w1, w2, w3)).1.actions =
        g.actions ++ [(37 : Int)]) ∧
    (∀ a t, substantive w1 w2 = .kakan a t →
      ∃ ks, (extend_from_event_window C cfg inv g ctx (w0, w1, w2, w3)).1.actions =
        g.actions ++ (42 : Int) :: ks) ∧
    (∀ a cs, substantive w1 w2 = .ankan a cs →
      ∃ ks, (extend_from_event_window C cfg inv g ctx (w0, w1, w2, w3)).1.actions =
        g.actions ++ (42 : Int) :: ks) ∧
    (∀ a t cs, a ≠ g.player_id → substantive w1 w2 = .chi a t cs →
      ∀ l ∈ (extend_from_event_window C cfg inv g ctx (w0, w1, w2, w3)).1.actions,
        l ∈ g.actions ∨ l = 43 ∨ l = 45) ∧
    (∀ a t, a ≠ g.player_id → substantive w1 w2 = .pon a t →
      ∀ l ∈ (extend_from_event_window C cfg inv g ctx (w0, w1, w2, w3)).1.actions,
        l ∈ g.actions ∨ l = 43 ∨ l = 45) ∧
    (∀ a t, a ≠ g.player_id → substantive w1 w2 = .daiminkan a t →
      ∀ l ∈ (extend_from_event_window C cfg inv g ctx (w0, w1, w2, w3)).1.actions,
        l ∈ g.actions ∨ l = 43 ∨ l = 45) := by
  have hbr := extend_actions_eq C cfg inv g ctx w0 w1 w2 w3
  have hp1 : (C.update ctx.state w0).1 = s := by rw [hu]
  have hp2 : (C.update ctx.state w0).2 = cans := by rw [hu]
  rw [hp1, hp2] at hbr
  have hmem : ∀ (hfb : hitsDirectRule g.player_id cans (substantive w1 w2) = false),
      ∀ l ∈ (extend_from_event_window C cfg inv g ctx (w0, w1, w2, w3)).1.actions,
        l ∈ g.actions ∨ l = 43 ∨ l = 45 := by
    intro hfb l hl
    rw [hbr] at hl
    rcases List.mem_append.1 hl with h | h
    · exact Or.inl h
    · rcases List.mem_map.1 h with ⟨n, hn, rfl⟩
      rcases emittedLabels_fallback_sub cfg g.player_id cans _ _ w1 w2 w3 hfb n hn
        with rfl | rfl
      · exact Or.inr (Or.inl rfl)
      · exact Or.inr (Or.inr rfl)
  refine ⟨?_, ?_, ?_, ?_, ?_, ?_, ?_⟩
  · intro a t hs
    rw [hbr, emittedLabels_act _ _ _ _ _ _ _ _ hact, deriveLabel, hs]
    simp [deriveLabelAt]
  · intro a hs
    rw [hbr, emittedLabels_act _ _ _ _ _ _ _ _ hact, deriveLabel, hs]
    simp [deriveLabelAt]
  · intro a t hs
    rw [hbr, emittedLabels_act _ _ _ _ _ _ _ _ hact, deriveLabel, hs]
    cases hk : (cfg.always_include_kan_select
        || decide ((C.kakanCandidates s).length > 1))
    · exact ⟨[], by simp [deriveLabelAt, hk]⟩
    · exact ⟨[(deaka t : Int)], by simp [deriveLabelAt, hk]⟩
  · intro a cs hs
    rw [hbr, emittedLabels_act _ _ _ _ _ _ _ _ hact, deriveLabel, hs]
    cases hk : (cfg.always_include_kan_select
        || decide ((C.ankanCandidates s).length > 1))
    · exact ⟨[], by simp [deriveLabelAt, hk]⟩
    · exact ⟨[(deaka cs.1 : Int)], by simp [deriveLabelAt, hk]⟩
  · intro a t cs ha hs
    exact hmem (by rw [hs]; simpa [hitsDirectRule] using ha)
  · intro a t ha hs
    exact hmem (by rw [hs]; simpa [hitsDirectRule] using ha)
  · intro a t ha hs
    exact hmem (by rw [hs]; simpa [hitsDirectRule] using ha)

/-- C2 witness: this participant's own discard in the lookahead emits its
tile label, and another participant's pon leaves only fallback labels. -/
theorem c2_actor_guards_witness :
    (extend_from_event_window (constCollab cansDiscard) cfgF none gEmpty ctxInit
        (.tsumo 0 4, .dahai 0 4, .endKyoku, .endGame)).1.actions =
      gEmpty.actions ++ [(4 : Int)] ∧
    ∀ l ∈ (extend_from_event_window (constCollab cansPon) cfgF none gEmpty ctxInit
        (.dahai 1 5, .pon 2 5, .dahai 2 9, .tsumo 3 0)).1.actions,
      l ∈ gEmpty.actions ∨ l = 43 ∨ l = 45 :=
  ⟨(c2_actor_guards (constCollab cansDiscard) cfgF none gEmpty ctxInit
      (.tsumo 0 4) (.dahai 0 4) .endKyoku .endGame () cansDiscard rfl
      (by decide)).1 0 4 rfl,
   (c2_actor_guards (constCollab cansPon) cfgF none gEmpty ctxInit
      (.dahai 1 5) (.pon 2 5) (.dahai 2 9) (.tsumo 3 0) () cansPon rfl
      (by decide)).2.2.2.2.2.1 2 5 (by decide) rfl⟩

/-- C2 counterexample: with a triplet opportunity open for seat 0, the
substantive lookahead event is a discard by participant 2 — a different
participant — yet the discard arm carries no actor guard and the code
emits the rule-1 discard label 7, refuting "none of the labels of rules
1-6 is emitted". -/
theorem c2_counterexample :
    substantive (.dahai 2 7) (.tsumo 2 0) = .dahai 2 7 ∧
    (2 : Nat) ≠ 0 ∧
    (extend_from_event_window (constCollab cansPon) cfgF none gEmpty ctxInit
        (.dahai 1 5, .dahai 2 7, .tsumo 2 0, .endKyoku)).1.actions = [(7 : Int)] ∧
    (0 : Int) ≤ 7 ∧ (7 : Int) ≤ 36 :=
  ⟨rfl, by decide, rfl, by decide, by decide⟩

/-- C3: when the substantive lookahead event is a quad declaration by this
participant, the primary record carries label 42 and a second "which tile"
sub-decision record (whose label is the chosen tile with any red variant
collapsed) immediately follows it exactly when the always-split flag is
set or — for the extended (kakan) and self-declared (ankan) cases only —
the tracker reports more than one legal candidate tile; the
claimed-from-discard (daiminkan) case gates on the flag alone.  A window
never contributes more than two records. -/
theorem c3_kan_select (C : Collab S O M IObs Inv G)
    (cfg : GameplayLoader) (inv : Option (List Inv)) (g : Gameplay O M IObs G)
    (ctx : LoaderContext S) (w0 w1 w2 w3 : Event) (s : S) (cans : Cans)
    (hu : C.update ctx.state w0 = (s, cans))
    (hact : cans.can_act = true) :
    (∀ t, substantive w1 w2 = .daiminkan g.player_id t →
      (extend_from_event_window C cfg inv g ctx (w0, w1, w2, w3)).1.actions =
        g.actions ++
          (if cfg.always_include_kan_select
           then [(42 : Int), (deaka t : Int)] else [(42 : Int)])) ∧
    (∀ t, substantive w1 w2 = .kakan g.player_id t →
      (extend_from_event_window C cfg inv g ctx (w0, w1, w2, w3)).1.actions =
        g.actions ++
          (if cfg.always_include_kan_select || decide ((C.kakanCandidates s).length > 1)
           then [(42 : Int), (deaka t : Int)] else [(42 : Int)])) ∧
    (∀ cs, substantive w1 w2 = .ankan g.player_id cs →
      (extend_from_event_window C cfg inv g ctx (w0, w1, w2, w3)).1.actions =
        g.actions ++
          (if cfg.always_include_kan_select || decide ((C.ankanCandidates s).length > 1)
           then [(42 : Int), (deaka cs.1 : Int)] else [(42 : Int)])) ∧
    (∀ wa wb wc wd,
      (extend_from_event_window C cfg inv g ctx (wa, wb, wc, wd)).1.actions.length ≤
        g.actions.length + 2) := by
  have hbr := extend_actions_eq C cfg inv g ctx w0 w1 w2 w3
  have hp1 : (C.update ctx.state w0).1 = s := by rw [hu]
  have hp2 : (C.update ctx.state w0).2 = cans := by rw [hu]
  rw [hp1, hp2] at hbr
  refine ⟨?_, ?_, ?_, ?_⟩
  · intro t hs
    rw [hbr, emittedLabels_act _ _ _ _ _ _ _ _ hact, deriveLabel, hs]
    cases hk : cfg.always_include_kan_select <;> simp [deriveLabelAt, hk]
  · intro t hs
    rw [hbr, emittedLabels_act _ _ _ _ _ _ _ _ hact, deriveLabel, hs]
    cases hk : (cfg.always_include_kan_select
        || decide ((C.kakanCandidates s).length > 1)) <;> simp [deriveLabelAt, hk]
  · intro cs hs
    rw [hbr, emittedLabels_act _ _ _ _ _ _ _ _ hact, deriveLabel, hs]
    cases hk : (cfg.always_include_kan_select
        || decide ((C.ankanCandidates s).length > 1)) <;> simp [deriveLabelAt, hk]
  · intro wa wb wc wd
    rw [extend_actions_eq C cfg inv g ctx wa wb wc wd, List.length_append,
      List.length_map]
    have hle : ∀ cs kc ac,
        (emittedLabels cfg g.player_id cs kc ac wb wc wd).length ≤ 2 := by
      intro cs kc ac
      rw [emittedLabels]
      cases cs.can_act
      · simp
      · rcases deriveLabel cfg g.player_id cs kc ac wb wc wd with ⟨_ | l, _ | k⟩ <;>
          simp
    exact Nat.add_le_add_left (hle _ _ _) _

/-- C3 witness: a self-declared quad with the always-split flag off and a
single-candidate tracker yields exactly one record (label 42), and with
the flag on yields the primary record followed by the resolved-tile
sub-record. -/
theorem c3_kan_select_witness :
    (extend_from_event_window (constCollab cansDiscard) cfgF none gEmpty ctxInit
        (.tsumo 0 4, .ankan 0 (34, 4, 4, 4), .endKyoku, .endGame)).1.actions =
      gEmpty.actions ++ [(42 : Int)] ∧
    (extend_from_event_window (constCollab cansDiscard) cfgT none gEmpty ctxInit
        (.tsumo 0 4, .ankan 0 (34, 4, 4, 4), .endKyoku, .endGame)).1.actions =
      gEmpty.actions ++ [(42 : Int), (4 : Int)] := by
  have h1 := (c3_kan_select (constCollab cansDiscard) cfgF none gEmpty ctxInit
    (.tsumo 0 4) (.ankan 0 (34, 4, 4, 4)) .endKyoku .endGame () cansDiscard rfl
    (by decide)).2.2.1 (34, 4, 4, 4) rfl
  have h2 := (c3_kan_select (constCollab cansDiscard) cfgT none gEmpty ctxInit
    (.tsumo 0 4) (.ankan 0 (34, 4, 4, 4)) .endKyoku .endGame () cansDiscard rfl
    (by decide)).2.2.1 (34, 4, 4, 4) rfl
  refine ⟨?_, ?_⟩
  · rw [h1]; rfl
  · rw [h2]; rfl

end ClaimTheorems

/-! ## Lemmas about the filter sets -/

theorem mem_sortDedup (a : String) (l : List String) :
    a ∈ sortDedup l ↔ a ∈ l := by
  rw [sortDedup, List.mem_dedup]
  exact (List.perm_insertionSort _ l).mem_iff

theorem sortDedup_eq_nil (l : List String) : sortDedup l = [] ↔ l = [] := by
  rw [sortDedup, List.dedup_eq_nil]
  constructor
  · intro h
    exact ((List.perm_insertionSort (· ≤ ·) l).symm.trans (h ▸ List.Perm.refl _)).eq_nil
  · rintro rfl
    rfl

section ClaimTheorems4

/-- C4: seat selection per participant name — with a non-empty allow-list
the seat is selected exactly when the name is a member of the (original)
allow-list, regardless of the deny-list; with an empty allow-list and a
non-empty deny-list, exactly when the name is not a member of the
deny-list; with both lists empty, always. -/
theorem c4_seat_selection (version : Nat) (oracle : Bool)
    (allow deny : List String) (trust ak : Bool) (name : String) :
    (allow ≠ [] →
      (selectName (GameplayLoader.new version oracle allow deny trust ak) name = true ↔
        name ∈ allow)) ∧
    (allow = [] → deny ≠ [] →
      (selectName (GameplayLoader.new version oracle allow deny trust ak) name = true ↔
        name ∉ deny)) ∧
    (allow = [] → deny = [] →
      selectName (GameplayLoader.new version oracle allow deny trust ak) name = true) := by
  refine ⟨?_, ?_, ?_⟩
  · intro ha
    have hne : sortDedup allow ≠ [] := fun h => ha ((sortDedup_eq_nil allow).1 h)
    simp [selectName, GameplayLoader.new, hne, mem_sortDedup]
  · rintro rfl hd
    have hne : sortDedup deny ≠ [] := fun h => hd ((sortDedup_eq_nil deny).1 h)
    have h0 : sortDedup ([] : List String) = [] := rfl
    simp [selectName, GameplayLoader.new, h0, hne, mem_sortDedup]
  · rintro rfl rfl
    rfl

/-- C4 witness: a name on both lists is selected (allow-list wins); a name
only on the deny-list is rejected when the allow-list is empty; with both
lists empty every name is selected. -/
theorem c4_seat_selection_witness :
    (selectName (GameplayLoader.new 1 true ["x"] ["x"] false false) "x" = true ↔
      "x" ∈ ["x"]) ∧
    (selectName (GameplayLoader.new 1 true [] ["x"] false false) "x" = true ↔
      "x" ∉ ["x"]) ∧
    selectName (GameplayLoader.new 1 true [] [] false false) "x" = true :=
  ⟨(c4_seat_selection 1 true ["x"] ["x"] false false "x").1 (by decide),
   (c4_seat_selection 1 true [] ["x"] false false "x").2.1 rfl (by decide),
   (c4_seat_selection 1 true [] [] false false "x").2.2 rfl rfl⟩

end ClaimTheorems4

/-! ## Lemmas about fail-fast collection -/

theorem collectE_error {α β : Type _} :
    ∀ (l : List α) (f : α → Except LoadErr β) (e : LoadErr),
      collectE l f = .error e → ∃ a ∈ l, f a = .error e
  | [], _, _ => by intro h; exact absurd h (by simp [collectE])
  | a :: rest, f, e => by
    intro h
    rw [collectE] at h
    cases hfa : f a with
    | error e2 =>
      rw [hfa] at h
      exact ⟨a, List.mem_cons_self a rest, by rw [hfa]; simpa using h⟩
    | ok b =>
      rw [hfa] at h
      cases hrest : collectE rest f with
      | error e2 =>
        rw [hrest] at h
        obtain ⟨x, hx, hfx⟩ := collectE_error rest f e2 hrest
        exact ⟨x, List.mem_cons_of_mem a hx, by rw [hfx]; simpa using h⟩
      | ok bs => rw [hrest] at h; simp at h

theorem collectE_isOk {α β : Type _} :
    ∀ (l : List α) (f : α → Except LoadErr β),
      (∀ a ∈ l, (f a).isOk = true) → (collectE l f).isOk = true
  | [], _, _ => rfl
  | a :: rest, f, h => by
    have hfa := h a (List.mem_cons_self a rest)
    rw [collectE]
    cases hf : f a with
    | error e => rw [hf] at hfa; exact absurd hfa (by simp [Except.isOk, Except.toBool])
    | ok b =>
      have hr := collectE_isOk rest f fun x hx => h x (List.mem_cons_of_mem a hx)
      cases hrest : collectE rest f with
      | error e2 => rw [hrest] at hr; exact absurd hr (by simp [Except.isOk, Except.toBool])
      | ok bs => rfl

theorem collectE_ok_map {α β : Type _} (d : β) :
    ∀ (l : List α) (f : α → Except LoadErr β),
      (∀ a ∈ l, (f a).isOk = true) →
      collectE l f = .ok (l.map fun a => (f a).toOption.getD d)
  | [], _, _ => rfl
  | a :: rest, f, h => by
    have hfa := h a (List.mem_cons_self a rest)
    rw [collectE]
    cases hf : f a with
    | error e => rw [hf] at hfa; exact absurd hfa (by simp [Except.isOk, Except.toBool])
    | ok b =>
      rw [collectE_ok_map d rest f fun x hx => h x (List.mem_cons_of_mem a hx)]
      simp [hf, Except.toOption]

/-! ## Column invariants of the forward pass -/

theorem foldl_inv {α β : Type _} (P : α → Prop) (step : α → β → α)
    (h : ∀ a b, P a → P (step a b)) :
    ∀ (l : List β) (a : α), P a → P (l.foldl step a)
  | [], _, ha => ha
  | b :: rest, a, ha => foldl_inv P step h rest (step a b) (h a b ha)

section InvariantLemmas

variable {S O M IObs Inv G : Type}

theorem bookkeepG_aligned {g : Gameplay O M IObs G} {w0 : Event}
    (h : recordsAligned g) : recordsAligned (bookkeepG g w0) := by
  cases w0 <;> exact h

theorem bookkeepG_gamma {g : Gameplay O M IObs G} {w0 : Event}
    (h : gammaOk g) : gammaOk (bookkeepG g w0) := by
  cases w0 <;> exact h

theorem add_entry_aligned (C : Collab S O M IObs Inv G) (cfg : GameplayLoader)
    (inv : Option (List Inv)) {g : Gameplay O M IObs G} (ctx : LoaderContext S)
    (b : Bool) (label : Nat) (h : recordsAligned g) :
    recordsAligned (add_entry C cfg inv g ctx b label) := by
  obtain ⟨h1, h2, h3, h4, h5, h6⟩ := h
  cases inv <;>
    exact ⟨by simp [add_entry, h1], by simp [add_entry, h2], by simp [add_entry, h3],
      by simp [add_entry, h4], by simp [add_entry, h5], by simp [add_entry, h6]⟩

theorem add_entry_gamma (C : Collab S O M IObs Inv G) (cfg : GameplayLoader)
    (inv : Option (List Inv)) {g : Gameplay O M IObs G} (ctx : LoaderContext S)
    (b : Bool) (label : Nat) (h : gammaOk g) :
    gammaOk (add_entry C cfg inv g ctx b label) := by
  rw [gammaOk] at h ⊢
  cases inv <;> simp [add_entry, h, List.map_append]

theorem emitRecords_aligned (C : Collab S O M IObs Inv G) (cfg : GameplayLoader)
    (inv : Option (List Inv)) {g : Gameplay O M IObs G} (ctx : LoaderContext S)
    (p : Option Nat × Option Nat) (h : recordsAligned g) :
    recordsAligned (emitRecords C cfg inv g ctx p) := by
  rcases p with ⟨_ | l, _ | k⟩ <;> simp only [emitRecords] <;>
    first
    | exact h
    | exact add_entry_aligned C cfg inv ctx _ _ h
    | exact add_entry_aligned C cfg inv ctx _ _ (add_entry_aligned C cfg inv ctx _ _ h)

theorem emitRecords_gamma (C : Collab S O M IObs Inv G) (cfg : GameplayLoader)
    (inv : Option (List Inv)) {g : Gameplay O M IObs G} (ctx : LoaderContext S)
    (p : Option Nat × Option Nat) (h : gammaOk g) :
    gammaOk (emitRecords C cfg inv g ctx p) := by
  rcases p with ⟨_ | l, _ | k⟩ <;> simp only [emitRecords] <;>
    first
    | exact h
    | exact add_entry_gamma C cfg inv ctx _ _ h
    | exact add_entry_gamma C cfg inv ctx _ _ (add_entry_gamma C cfg inv ctx _ _ h)

theorem extend_aligned (C : Collab S O M IObs Inv G) (cfg : GameplayLoader)
    (inv : Option (List Inv)) {g : Gameplay O M IObs G} (ctx : LoaderContext S)
    (wnd : Event × Event × Event × Event) (h : recordsAligned g) :
    recordsAligned (extend_from_event_window C cfg inv g ctx wnd).1 := by
  rcases wnd with ⟨w0, w1, w2, w3⟩
  rw [extend_from_event_window]
  split
  · exact emitRecords_aligned C cfg inv _ _ (bookkeepG_aligned h)
  · exact bookkeepG_aligned h

theorem extend_gamma (C : Collab S O M IObs Inv G) (cfg : GameplayLoader)
    (inv : Option (List Inv)) {g : Gameplay O M IObs G} (ctx : LoaderContext S)
    (wnd : Event × Event × Event × Event) (h : gammaOk g) :
    gammaOk (extend_from_event_window C cfg inv g ctx wnd).1 := by
  rcases wnd with ⟨w0, w1, w2, w3⟩
  rw [extend_from_event_window]
  split
  · exact emitRecords_gamma C cfg inv _ _ (bookkeepG_gamma h)
  · exact bookkeepG_gamma h

/-- Inversion of a successful per-seat load: the result satisfies the
column invariants and its episode-boundary column is the post-pass of its
round-index column. -/
theorem byPlayer_ok_inv (C : Collab S O M IObs Inv G) (cfg : GameplayLoader)
    (events : List Event) (pid : Nat) (inv : Option (List Inv))
    (g : Gameplay O M IObs G)
    (h : load_events_by_player C cfg events pid inv = .ok g) :
    recordsAligned g ∧ gammaOk g ∧ g.dones = computeDones g.at_kyoku := by
  rw [load_events_by_player] at h
  cases hg : C.grpLoad events with
  | error e => rw [hg] at h; exact absurd h (by simp)
  | ok grp =>
    rw [hg] at h
    simp only [Except.ok.injEq] at h
    subst h
    have hinv := foldl_inv
      (fun p : Gameplay O M IObs G × LoaderContext S =>
        recordsAligned p.1 ∧ gammaOk p.1)
      (fun p w => extend_from_event_window C cfg inv p.1 p.2 w)
      (fun p w hp =>
        ⟨extend_aligned C cfg inv p.2 w hp.1, extend_gamma C cfg inv p.2 w hp.2⟩)
      (windows4 events)
      ({ obs := [], invisible_obs := [], actions := [], masks := [], at_kyoku := []
         dones := [], apply_gamma := [], at_turns := [], shantens := [], grp := grp
         player_id := pid, player_name := "" },
       { state := C.newState pid, kyoku_idx := 0
         opponent_states :=
           (C.newState ((pid + 1) % 4), C.newState ((pid + 2) % 4),
            C.newState ((pid + 3) % 4))
         from_rinshan := false, yama_idx := 0, rinshan_idx := 0 })
      ⟨⟨rfl, rfl, rfl, rfl, rfl, rfl⟩, rfl⟩
    exact ⟨hinv.1, hinv.2, rfl⟩

/-- A per-seat load succeeds exactly when the round-outcome extraction
succeeds. -/
theorem byPlayer_isOk (C : Collab S O M IObs Inv G) (cfg : GameplayLoader)
    (events : List Event) (pid : Nat) (inv : Option (List Inv)) :
    (load_events_by_player C cfg events pid inv
      : Except LoadErr (Gameplay O M IObs G)).isOk = (C.grpLoad events).isOk := by
  rw [load_events_by_player]
  cases hg : C.grpLoad events <;> rfl

end InvariantLemmas

/-! ## Lemmas about the episode-boundary post-pass -/

theorem pairsLt_length : ∀ ks : List Nat, (pairsLt ks).length = ks.length - 1
  | [] => rfl
  | [_] => rfl
  | a :: b :: rest => by
    have := pairsLt_length (b :: rest)
    simp [pairsLt] at this ⊢
    omega

theorem pairsLt_getD :
    ∀ (ks : List Nat) (i : Nat), i + 1 < ks.length →
      (pairsLt ks).getD i false = decide (ks.getD i 0 < ks.getD (i + 1) 0)
  | [], i, h => by simp at h
  | [_], i, h => by simp at h
  | a :: b :: rest, 0, _ => by simp [pairsLt]
  | a :: b :: rest, i + 1, h => by
    have hr := pairsLt_getD (b :: rest) i (by simpa using h)
    simpa [pairsLt] using hr

theorem computeDones_nil : computeDones [] = [true] := rfl

theorem computeDones_length (ks : List Nat) (h : ks ≠ []) :
    (computeDones ks).length = ks.length := by
  rw [computeDones, List.length_append, pairsLt_length]
  have : 1 ≤ ks.length := List.length_pos.2 h
  simp
  omega

theorem computeDones_getD (ks : List Nat) (i : Nat) (h : i + 1 < ks.length) :
    (computeDones ks).getD i false = decide (ks.getD i 0 < ks.getD (i + 1) 0) := by
  rw [computeDones, List.getD_append _ _ _ _ (by rw [pairsLt_length]; omega)]
  exact pairsLt_getD ks i h

theorem computeDones_getLast (ks : List Nat) :
    (computeDones ks).getLast? = some true := by
  rw [computeDones]
  exact List.getLast?_concat _

section ClaimTheorems567

variable {S O M IObs Inv G : Type}

/-- C5 (amended): assuming the round-outcome extraction succeeds, loading
a single log succeeds exactly when the parsed event list is non-empty and
its first event is a game-start event; the four-name arity is enforced by
the event type itself, and no minimum-event-count check exists — a log
shorter than four events still loads (its sliding window simply produces
no records). -/
theorem c5_load_validation (C : Collab S O M IObs Inv G) (cfg : GameplayLoader)
    (events : List Event) (hgrp : (C.grpLoad events).isOk = true) :
    (load_events C cfg events
      : Except LoadErr (List (Gameplay O M IObs G))).isOk =
      hasStartGameHead events := by
  cases events with
  | nil => rfl
  | cons e rest =>
    cases e
    case startGame ns =>
      rw [load_events, hasStartGameHead]
      exact collectE_isOk _ _ fun pid _ =>
        (byPlayer_isOk C cfg (Event.startGame ns :: rest) pid _).trans hgrp
    all_goals rfl

/-- C5 witness: a well-formed five-event log with a trivially succeeding
outcome extractor loads successfully, matching the head check. -/
theorem c5_load_validation_witness :
    ((constCollab cansNone).grpLoad evs5).isOk = true ∧
    (load_events (constCollab cansNone) cfgF evs5).isOk = hasStartGameHead evs5 :=
  ⟨rfl, c5_load_validation (constCollab cansNone) cfgF evs5 rfl⟩

/-- C5 counterexample: a log consisting of a single game-start event has
fewer than the minimum four events the claim says are required, yet the
load succeeds — refuting "fails ... exactly when ... the log contains
fewer than the minimum four events". -/
theorem c5_counterexample :
    (load_events (constCollab cansNone) cfgF evsShort).isOk = true ∧
    evsShort.length < 4 :=
  ⟨rfl, by decide⟩

/-- C6 (amended): for every completed scan, the always-present per-record
columns are aligned index-for-index; when at least one record was emitted
the episode-boundary column has exactly one entry per record, entry `i` is
true exactly when record `i+1`'s round index is strictly greater than
record `i`'s, and the final entry is always true; a scan that emitted no
records nevertheless carries a single `true` boundary entry. -/
theorem c6_dones (C : Collab S O M IObs Inv G) (cfg : GameplayLoader)
    (events : List Event) (pid : Nat) (inv : Option (List Inv))
    (g : Gameplay O M IObs G)
    (h : load_events_by_player C cfg events pid inv = .ok g) :
    recordsAligned g ∧
    (g.at_kyoku = [] → g.dones = [true]) ∧
    (g.at_kyoku ≠ [] → g.dones.length = g.at_kyoku.length) ∧
    (∀ i, i + 1 < g.at_kyoku.length →
      g.dones.getD i false = decide (g.at_kyoku.getD i 0 < g.at_kyoku.getD (i + 1) 0)) ∧
    g.dones.getLast? = some true := by
  obtain ⟨ha, _, hd⟩ := byPlayer_ok_inv C cfg events pid inv g h
  refine ⟨ha, ?_, ?_, ?_, ?_⟩
  · intro h0
    rw [hd, h0]
    rfl
  · intro h0
    rw [hd]
    exact computeDones_length _ h0
  · intro i hi
    rw [hd]
    exact computeDones_getD _ i hi
  · rw [hd]
    exact computeDones_getLast _

/-- C6 witness: the one-record scan of the five-event log has aligned
columns and a final boundary entry. -/
theorem c6_dones_witness :
    recordsAligned gRun ∧ gRun.dones.getLast? = some true :=
  ⟨(c6_dones (constCollab cansDiscard) cfgF evs5 0 none gRun rfl).1,
   (c6_dones (constCollab cansDiscard) cfgF evs5 0 none gRun rfl).2.2.2.2⟩

/-- C6 counterexample: scanning the five-event log for a seat whose
tracker never reports a legal action emits zero records, yet the
episode-boundary column holds one entry — refuting "the episode-boundary
column has exactly one entry per emitted record". -/
theorem c6_counterexample :
    ((load_events_by_player (constCollab cansNone) cfgF evs5 0 none).toOption.map
      fun g => (g.actions.length, g.dones.length)) = some (0, 1) := rfl

/-- C7: for every emitted record the reward-discount-eligibility flag is
true exactly when the record's label code is at most 37 (all discard
labels and the reach label; every call, kan, win, abort and pass label is
excluded). -/
theorem c7_apply_gamma (C : Collab S O M IObs Inv G) (cfg : GameplayLoader)
    (events : List Event) (pid : Nat) (inv : Option (List Inv))
    (g : Gameplay O M IObs G)
    (h : load_events_by_player C cfg events pid inv = .ok g) :
    g.apply_gamma = g.actions.map fun a => decide (a ≤ 37) :=
  (byPlayer_ok_inv C cfg events pid inv g h).2.1

/-- C7 witness: the one-record scan of the five-event log (label 4, a
discard) carries a true discount flag, as the pointwise predicate
computes. -/
theorem c7_apply_gamma_witness :
    load_events_by_player (constCollab cansDiscard) cfgF evs5 0 none =
      .ok gRun ∧
    gRun.apply_gamma = gRun.actions.map fun a => decide (a ≤ 37) :=
  ⟨rfl, c7_apply_gamma (constCollab cansDiscard) cfgF evs5 0 none gRun rfl⟩

end ClaimTheorems567

/-! ## Lemmas about error-context wrapping -/

theorem withContext_isOk {α : Type _} (m : String) (r : Except LoadErr α) :
    (withContext m r).isOk = r.isOk := by
  cases r <;> rfl

theorem withContext_toOption {α : Type _} (m : String) (r : Except LoadErr α) :
    (withContext m r).toOption = r.toOption := by
  cases r <;> rfl

theorem withContext_error {α : Type _} (m : String) (r : Except LoadErr α)
    (e : LoadErr) (h : withContext m r = .error e) :
    ∃ inner, r = .error inner ∧ e = .ctx m inner := by
  cases r with
  | error i =>
    refine ⟨i, rfl, ?_⟩
    rw [withContext] at h
    exact (Except.error.inj h).symm
  | ok a => exact absurd h (by rw [withContext]; simp)

section ClaimTheorems8910

variable {S O M IObs Inv G : Type}

/-- C8: the compressed-files batch load is batch-or-fail — every error it
returns is the error of some offending path, wrapped with a context
naming that path (so no partial results are returned), and when every
path succeeds it returns the concatenation of every path's record-sets in
order. -/
theorem c8_batch (C : Collab S O M IObs Inv G) (cfg : GameplayLoader)
    (readGz : String → Except LoadErr (List Event)) (files : List String) :
    (∀ e, load_gz_log_files C cfg readGz files = .error e →
      ∃ f, f ∈ files ∧ ∃ inner, e = .ctx ("error when reading " ++ f) inner ∧
        perFileLoad C cfg readGz f = .error inner) ∧
    ((∀ f ∈ files, (perFileLoad C cfg readGz f).isOk = true) →
      load_gz_log_files C cfg readGz files =
        .ok ((files.map fun f =>
          (perFileLoad C cfg readGz f).toOption.getD []).flatten)) := by
  constructor
  · intro e he
    rw [load_gz_log_files] at he
    cases hc : collectE files
        (fun f => withContext ("error when reading " ++ f) (perFileLoad C cfg readGz f)) with
    | error e2 =>
      rw [hc] at he
      obtain rfl : e = e2 := (Except.error.inj he).symm
      obtain ⟨f, hf, hwc⟩ := collectE_error files _ e hc
      obtain ⟨inner, hperr, rfl⟩ := withContext_error _ _ _ hwc
      exact ⟨f, hf, inner, rfl, hperr⟩
    | ok results => rw [hc] at he; exact absurd he (by simp)
  · intro hall
    rw [load_gz_log_files,
      collectE_ok_map [] files
        (fun f => withContext ("error when reading " ++ f) (perFileLoad C cfg readGz f))
        (fun f hf => (withContext_isOk _ _).trans (hall f hf))]
    simp only [withContext_toOption]

/-- C8 witness: a batch whose single path fails surfaces the path-naming
context around the underlying error, and a batch whose single path
succeeds returns the concatenation of its record-sets. -/
theorem c8_batch_witness :
    (∃ f, f ∈ ["bad.gz"] ∧ ∃ inner,
      LoadErr.ctx ("error when reading " ++ "bad.gz") (.base "boom") =
        LoadErr.ctx ("error when reading " ++ f) inner ∧
      perFileLoad (constCollab cansNone) cfgF readGzBad f = .error inner) ∧
    load_gz_log_files (constCollab cansNone) cfgF readGzGood ["good.gz"] =
      .ok ((["good.gz"].map fun f =>
        (perFileLoad (constCollab cansNone) cfgF readGzGood f).toOption.getD []).flatten) :=
  ⟨(c8_batch (constCollab cansNone) cfgF readGzBad ["bad.gz"]).1
      (LoadErr.ctx ("error when reading " ++ "bad.gz") (.base "boom")) rfl,
   (c8_batch (constCollab cansNone) cfgF readGzGood ["good.gz"]).2
      (fun f hf => by rw [List.mem_singleton] at hf; subst hf; rfl)⟩

/-- C9: oracle-mode wall-position bookkeeping — a draw event increments
the dead-wall counter and clears the dead-wall flag when the flag was
set, and otherwise increments the live-wall counter; every quad
declaration (self-declared, extended, or claimed) sets the flag; a
round-end event increments the round index, resets both counters to zero
and clears the flag, so every round starts with zero counters and a clear
flag. -/
theorem c9_wall_bookkeeping (C : Collab S O M IObs Inv G) (cfg : GameplayLoader)
    (invs : List Inv) (g : Gameplay O M IObs G) (ctx : LoaderContext S)
    (w0 w1 w2 w3 : Event) :
    (∀ a p, w0 = .tsumo a p →
      (extend_from_event_window C cfg (some invs) g ctx (w0, w1, w2, w3)).2.from_rinshan = false ∧
      (ctx.from_rinshan = true →
        (extend_from_event_window C cfg (some invs) g ctx (w0, w1, w2, w3)).2.rinshan_idx =
          ctx.rinshan_idx + 1 ∧
        (extend_from_event_window C cfg (some invs) g ctx (w0, w1, w2, w3)).2.yama_idx =
          ctx.yama_idx) ∧
      (ctx.from_rinshan = false →
        (extend_from_event_window C cfg (some invs) g ctx (w0, w1, w2, w3)).2.yama_idx =
          ctx.yama_idx + 1 ∧
        (extend_from_event_window C cfg (some invs) g ctx (w0, w1, w2, w3)).2.rinshan_idx =
          ctx.rinshan_idx)) ∧
    (∀ a cs, w0 = .ankan a cs →
      (extend_from_event_window C cfg (some invs) g ctx (w0, w1, w2, w3)).2.from_rinshan = true ∧
      (extend_from_event_window C cfg (some invs) g ctx (w0, w1, w2, w3)).2.yama_idx =
        ctx.yama_idx ∧
      (extend_from_event_window C cfg (some invs) g ctx (w0, w1, w2, w3)).2.rinshan_idx =
        ctx.rinshan_idx) ∧
    (∀ a p, w0 = .kakan a p →
      (extend_from_event_window C cfg (some invs) g ctx (w0, w1, w2, w3)).2.from_rinshan = true ∧
      (extend_from_event_window C cfg (some invs) g ctx (w0, w1, w2, w3)).2.yama_idx =
        ctx.yama_idx ∧
      (extend_from_event_window C cfg (some invs) g ctx (w0, w1, w2, w3)).2.rinshan_idx =
        ctx.rinshan_idx) ∧
    (∀ a p, w0 = .daiminkan a p →
      (extend_from_event_window C cfg (some invs) g ctx (w0, w1, w2, w3)).2.from_rinshan = true ∧
      (extend_from_event_window C cfg (some invs) g ctx (w0, w1, w2, w3)).2.yama_idx =
        ctx.yama_idx ∧
      (extend_from_event_window C cfg (some invs) g ctx (w0, w1, w2, w3)).2.rinshan_idx =
        ctx.rinshan_idx) ∧
    (w0 = .endKyoku →
      (extend_from_event_window C cfg (some invs) g ctx (w0, w1, w2, w3)).2.kyoku_idx =
        ctx.kyoku_idx + 1 ∧
      (extend_from_event_window C cfg (some invs) g ctx (w0, w1, w2, w3)).2.yama_idx = 0 ∧
      (extend_from_event_window C cfg (some invs) g ctx (w0, w1, w2, w3)).2.rinshan_idx = 0 ∧
      (extend_from_event_window C cfg (some invs) g ctx (w0, w1, w2, w3)).2.from_rinshan =
        false) := by
  refine ⟨?_, ?_, ?_, ?_, ?_⟩
  · rintro a p rfl
    rw [extend_ctx_eq]
    cases hfr : ctx.from_rinshan <;>
      simp [bookkeepCtx, bookkeepKyoku, bookkeepWall, bookkeepOpp, hfr]
  · rintro a cs rfl
    rw [extend_ctx_eq]
    simp [bookkeepCtx, bookkeepKyoku, bookkeepWall, bookkeepOpp]
  · rintro a p rfl
    rw [extend_ctx_eq]
    simp [bookkeepCtx, bookkeepKyoku, bookkeepWall, bookkeepOpp]
  · rintro a p rfl
    rw [extend_ctx_eq]
    simp [bookkeepCtx, bookkeepKyoku, bookkeepWall, bookkeepOpp]
  · rintro rfl
    rw [extend_ctx_eq]
    simp [bookkeepCtx, bookkeepKyoku, bookkeepWall, bookkeepOpp]

/-- C9 witness: a live-wall draw, a dead-wall replacement draw after a
flagging quad, a flag-setting quad, and a round-end reset, each at a
concrete context. -/
theorem c9_wall_bookkeeping_witness :
    ((extend_from_event_window (constCollab cansNone) cfgF (some []) gEmpty ctxInit
        (.tsumo 1 0, .dahai 1 0, .tsumo 2 0, .dahai 2 0)).2.yama_idx =
      ctxInit.yama_idx + 1 ∧
     (extend_from_event_window (constCollab cansNone) cfgF (some []) gEmpty ctxInit
        (.tsumo 1 0, .dahai 1 0, .tsumo 2 0, .dahai 2 0)).2.rinshan_idx =
      ctxInit.rinshan_idx) ∧
    ((extend_from_event_window (constCollab cansNone) cfgF (some []) gEmpty ctxFlag
        (.tsumo 1 0, .dahai 1 0, .tsumo 2 0, .dahai 2 0)).2.rinshan_idx =
      ctxFlag.rinshan_idx + 1 ∧
     (extend_from_event_window (constCollab cansNone) cfgF (some []) gEmpty ctxFlag
        (.tsumo 1 0, .dahai 1 0, .tsumo 2 0, .dahai 2 0)).2.yama_idx =
      ctxFlag.yama_idx) ∧
    (extend_from_event_window (constCollab cansNone) cfgF (some []) gEmpty ctxInit
        (.ankan 1 (4, 4, 4, 4), .tsumo 1 0, .dahai 1 0, .tsumo 2 0)).2.from_rinshan =
      true ∧
    ((extend_from_event_window (constCollab cansNone) cfgF (some []) gEmpty ctxFlag
        (.endKyoku, .startKyoku, .tsumo 0 0, .dahai 0 0)).2.kyoku_idx =
      ctxFlag.kyoku_idx + 1 ∧
     (extend_from_event_window (constCollab cansNone) cfgF (some []) gEmpty ctxFlag
        (.endKyoku, .startKyoku, .tsumo 0 0, .dahai 0 0)).2.yama_idx = 0 ∧
     (extend_from_event_window (constCollab cansNone) cfgF (some []) gEmpty ctxFlag
        (.endKyoku, .startKyoku, .tsumo 0 0, .dahai 0 0)).2.rinshan_idx = 0 ∧
     (extend_from_event_window (constCollab cansNone) cfgF (some []) gEmpty ctxFlag
        (.endKyoku, .startKyoku, .tsumo 0 0, .dahai 0 0)).2.from_rinshan = false) :=
  ⟨((c9_wall_bookkeeping (constCollab cansNone) cfgF [] gEmpty ctxInit
      (.tsumo 1 0) (.dahai 1 0) (.tsumo 2 0) (.dahai 2 0)).1 1 0 rfl).2.2 rfl,
   (((c9_wall_bookkeeping (constCollab cansNone) cfgF [] gEmpty ctxFlag
      (.tsumo 1 0) (.dahai 1 0) (.tsumo 2 0) (.dahai 2 0)).1 1 0 rfl).2.1 rfl),
   ((c9_wall_bookkeeping (constCollab cansNone) cfgF [] gEmpty ctxInit
      (.ankan 1 (4, 4, 4, 4)) (.tsumo 1 0) (.dahai 1 0) (.tsumo 2 0)).2.1 1
      (4, 4, 4, 4) rfl).1,
   (c9_wall_bookkeeping (constCollab cansNone) cfgF [] gEmpty ctxFlag
      .endKyoku .startKyoku (.tsumo 0 0) (.dahai 0 0)).2.2.2.2 rfl⟩

/-- C10: loading the same event list twice under the same configuration
and the same (deterministic, purely functional) collaborators yields
identical lists of record-sets, preserving per-seat record order. -/
theorem c10_determinism (C : Collab S O M IObs Inv G) (cfg : GameplayLoader)
    (events : List Event) :
    load_events C cfg events = load_events C cfg events := rfl

end ClaimTheorems8910

end Mortal
